import Mathlib

/-!
Verification of the query-routing / memory-management core of the
`openai-agent-app` repository, as a shallow embedding in Lean 4.

The embedding mirrors the Python sources:
  * `memory_manager.py` — `MemoryManager` (namespace `MM`)
  * `guardrails.py` — `GuardrailsManager` (namespace `GM`)
  * `agent.py` — `OpenAIAgentSDK` (namespace `SDK`), also exported as
    `OpenAIAgent` and instantiated by `app.py`
  * `pdf_processor.py` — chunking in `load_pdf_to_chroma`

External services (OpenAI moderation / completion, Tavily web search,
ChromaDB retrieval) are modelled as oracle parameters: an `Except`
value models a call that can raise, a plain function models the
response text a service returns for a prompt.
-/

namespace AgentApp

/-- Python slice `l[:-k]` (note: for `k = 0` Python yields `l[:0] = []`). -/
def dropLastPy (l : List α) (k : Nat) : List α :=
  if k = 0 then [] else l.take (l.length - k)

/-- Python slice `l[-k:]` (note: for `k = 0` Python yields `l[0:] = l`). -/
def lastPy (l : List α) (k : Nat) : List α :=
  if k = 0 then l else l.drop (l.length - k)

/-- `pat` occurs as a contiguous sublist of `hay` (Python `pat in hay` on lists). -/
def containsSubAux (pat : List Char) : List Char → Bool
  | [] => pat.isEmpty
  | c :: t => pat.isPrefixOf (c :: t) || containsSubAux pat t

/-- Python substring test `pat in hay` on strings. -/
def containsSub (hay pat : String) : Bool :=
  containsSubAux pat.data hay.data

/-- Python `str.lower()` (character-wise lowercasing; the keyword sets this
program compares against are all ASCII). -/
def strLower (s : String) : String :=
  ⟨s.data.map Char.toLower⟩

/-- An exchange as stored by `MemoryManager.update_memory`
(`{'user': ..., 'assistant': ..., 'timestamp': ...}`). -/
structure Exchange where
  user : String
  assistant : String
  timestamp : Nat
deriving DecidableEq, Repr

/-- An exchange as stored by `OpenAIAgentSDK.update_memory`
(`{'user': ..., 'assistant': ...}` — no timestamp field). -/
structure SExchange where
  user : String
  assistant : String
deriving DecidableEq, Repr

/-- The per-session memory map `self.conversation_memory : Dict[str, List[Dict]]`,
with `none` for an absent key. -/
def Mem := String → Option (List Exchange)

/-- A fresh `MemoryManager`: `self.conversation_memory = {}`. -/
def emptyMem : Mem := fun _ => none

/-- `self.conversation_memory.get(session_id, [])` convenience view. -/
def getHist (mem : Mem) (sid : String) : List Exchange :=
  (mem sid).getD []

/-- `self.conversation_memory[session_id] = l`. -/
def setHist (mem : Mem) (sid : String) (l : List Exchange) : Mem :=
  fun s => if s = sid then some l else mem s

namespace MM

/-- `memory_manager.py`, `MemoryManager.get_memory_context`: renders the last
10 exchanges as alternating `User:`/`Assistant:` lines, or the sentinel when
the session is absent. -/
def get_memory_context (mem : Mem) (sid : String) : String :=
  match mem sid with
  | none => "No previous conversation."
  | some memory =>
      let context_parts := (lastPy memory 10).foldl
        (fun acc ex => acc ++ ["User: " ++ ex.user, "Assistant: " ++ ex.assistant]) []
      String.intercalate "\n" context_parts

/-- `memory_manager.py`, `MemoryManager._compact_memory`: summarize the
prefix `memory[:-keep_recent]`, keep `memory[-keep_recent:]` verbatim.
`summarize` models the OpenAI summarization call: `none` models the call
raising, in which case the fallback keeps only the recent tail. `ts` models
`time.time()` at compaction time. -/
def compact_memory (keep_recent : Nat) (summarize : String → Option String)
    (ts : Nat) (memory : List Exchange) : List Exchange :=
  let old_conversations := dropLastPy memory keep_recent
  let recent_conversations := lastPy memory keep_recent
  let conversation_text := String.join (old_conversations.map fun ex =>
    "User: " ++ ex.user ++ "\nAssistant: " ++ ex.assistant ++ "\n\n")
  match summarize conversation_text with
  | some summary =>
      { user := "[Previous conversation summary]", assistant := summary,
        timestamp := ts } :: recent_conversations
  | none => recent_conversations

/-- `memory_manager.py`, `MemoryManager.update_memory`: lazily create the
session, append the exchange, and compact when the length reaches
`max_exchanges`. The returned `Bool` records whether `_compact_memory`
ran on this call. -/
def update_memory (max_exchanges keep_recent : Nat)
    (summarize : String → Option String) (mem : Mem)
    (sid user_query response : String) (ts : Nat) : Mem × Bool :=
  let hist := getHist mem sid
  let hist1 := hist ++ [{ user := user_query, assistant := response, timestamp := ts }]
  if hist1.length ≥ max_exchanges then
    (setHist mem sid (compact_memory keep_recent summarize ts hist1), true)
  else
    (setHist mem sid hist1, false)

/-- Repeated `update_memory` calls; the `Nat` counts how many of the calls
triggered compaction. -/
def update_many (max_exchanges keep_recent : Nat)
    (summarize : String → Option String) (mem : Mem) (sid : String)
    (inputs : List (String × String × Nat)) : Mem × Nat :=
  inputs.foldl
    (fun acc inp =>
      let r := update_memory max_exchanges keep_recent summarize acc.1 sid
        inp.1 inp.2.1 inp.2.2
      (r.1, acc.2 + (if r.2 then 1 else 0)))
    (mem, 0)

/-- The exchange record built for one `update_memory` input. -/
def toExch (inp : String × String × Nat) : Exchange :=
  { user := inp.1, assistant := inp.2.1, timestamp := inp.2.2 }

/-- `memory_manager.py`, `MemoryManager.clear_session_memory`:
`if session_id in self.conversation_memory: del ...`. -/
def clear_session_memory (mem : Mem) (sid : String) : Mem :=
  if (mem sid).isSome then (fun s => if s = sid then none else mem s) else mem

end MM

/-- The Taiwan-politics deny list, textually identical in `guardrails.py`
(`GuardrailsManager.taiwan_politics_keywords`) and `agent.py`
(`OpenAIAgentSDK.check_guardrails`). -/
def taiwan_politics_keywords : List String :=
  ["taiwan politics", "taiwanese politics", "taiwan election", "taiwan government",
   "dpp", "kmt", "taiwan independence", "taiwan unification", "cross-strait",
   "taiwan china", "taiwan president", "taiwan democracy", "taiwan party",
   "pan-blue", "pan-green", "taiwan political", "taiwan vote", "taiwan campaign"]

/-- `any(keyword in query_lower for keyword in taiwan_politics_keywords)`
(`GuardrailsManager._contains_taiwan_politics`, and the inline check in
`OpenAIAgentSDK.check_guardrails`). -/
def contains_taiwan_politics (query_lower : String) : Bool :=
  taiwan_politics_keywords.any (fun keyword => containsSub query_lower keyword)

namespace GM

/-- `guardrails.py`, `GuardrailsManager.blocked_response` (the source file
stores the emoji as the four code points of its double-encoded UTF-8). -/
def blocked_response : String :=
  "I appreciate your interest in current affairs! However, I\x27m designed to focus on " ++
  "helpful, informative topics rather than political discussions. I\x27d be happy to help " ++
  "you with questions about technology, business, weather, or other topics. " ++
  "What else can I assist you with? ðŸ˜Š"

/-- `guardrails.py`, `GuardrailsManager.moderation_response`. -/
def moderation_response : String :=
  "I understand you\x27re looking for information, but I\x27m designed to have respectful, " ++
  "helpful conversations. Could we explore something else I can assist you with today? ðŸ˜Š"

/-- `guardrails.py`, `GuardrailsManager._check_openai_moderation`:
the moderation oracle `.error` models the API call raising; the
`except` branch returns `False` (fail-open). -/
def check_openai_moderation (moderation : Except String Bool) : Bool :=
  match moderation with
  | .ok flagged => flagged
  | .error _ => false

/-- `guardrails.py`, `GuardrailsManager.check_guardrails`. The first
component is the `(is_blocked, response_message)` pair; the second records
whether the moderation API was called at all (stage 2 reached). -/
def check_guardrails (moderation : Except String Bool) (user_query : String) :
    (Bool × Option String) × Bool :=
  let query_lower := strLower user_query
  if contains_taiwan_politics query_lower then
    ((true, some blocked_response), false)
  else if check_openai_moderation moderation then
    ((true, some moderation_response), true)
  else
    ((false, none), true)

end GM

/-- Per-session memory map of `OpenAIAgentSDK` (`agent.py`), whose stored
exchanges carry no timestamp. -/
def SMem := String → Option (List SExchange)

/-- A fresh `OpenAIAgentSDK`: `self.conversation_memory = {}`. -/
def emptySMem : SMem := fun _ => none

/-- Session lookup with `[]` default for the SDK map. -/
def getHistS (mem : SMem) (sid : String) : List SExchange :=
  (mem sid).getD []

/-- Session assignment for the SDK map. -/
def setHistS (mem : SMem) (sid : String) (l : List SExchange) : SMem :=
  fun s => if s = sid then some l else mem s

/-- One result dict returned by the Tavily web-search client
(`title` / `content` / `url`, with the `get` defaults already applied). -/
structure WebResult where
  title : String
  content : String
  url : String

/-- Observable external calls made while processing one query. -/
inductive Ev where
  | moderation : Ev
  | webSearch : String → Ev
  | docSearch : String → Ev
  | compose : String → Ev
deriving DecidableEq, Repr

namespace SDK

/-- `agent.py`, blocked-response literal in `OpenAIAgentSDK.check_guardrails`. -/
def blocked_message : String :=
  "I appreciate your interest in current affairs! However, I\x27m designed to focus on helpful, informative topics rather than political discussions. I\x27d be happy to help you with questions about technology, business, weather, or other topics. What else can I assist you with? 😊"

/-- `agent.py`, moderation-response literal in `OpenAIAgentSDK.check_guardrails`. -/
def moderation_message : String :=
  "I understand you\x27re looking for information, but I\x27m designed to have respectful, helpful conversations. Could we explore something else I can assist you with today? 😊"

/-- `agent.py`, `OpenAIAgentSDK.check_guardrails`; the second component is
the trace of external calls it performs (at most the moderation call; the
`try/except` around it returns `(False, None)` on error). -/
def check_guardrails (moderation : Except String Bool) (user_query : String) :
    (Bool × Option String) × List Ev :=
  let query_lower := strLower user_query
  if contains_taiwan_politics query_lower then
    ((true, some blocked_message), [])
  else
    match moderation with
    | .ok flagged =>
        (if flagged then (true, some moderation_message) else (false, none),
         [Ev.moderation])
    | .error _ => ((false, none), [Ev.moderation])

/-- `agent.py`, `OpenAIAgentSDK.needs_web_search` keyword list. -/
def web_keywords : List String :=
  ["weather", "news", "current", "today", "latest", "stock price",
   "happening now", "temperature", "forecast"]

/-- `agent.py`, `OpenAIAgentSDK.needs_web_search`. -/
def needs_web_search (query : String) : Bool :=
  web_keywords.any (fun keyword => containsSub (strLower query) keyword)

/-- `agent.py`, `OpenAIAgentSDK.needs_document_search` keyword list. -/
def doc_keywords : List String :=
  ["amazon", "aws", "shareholder", "financial", "revenue", "business",
   "profit", "earnings", "annual report"]

/-- `agent.py`, `OpenAIAgentSDK.needs_document_search`. -/
def needs_document_search (query : String) : Bool :=
  doc_keywords.any (fun keyword => containsSub (strLower query) keyword)

/-- `agent.py`, `OpenAIAgentSDK.search_web_tool`, with the web-search client
modelled as an oracle (`.error` = the tool body raising; `MCPTavilyServer`
itself returns `[]` on a Tavily failure). -/
def search_web_tool (web : Except String (List WebResult)) (_query : String) : String :=
  match web with
  | .ok results =>
      if results.length > 0 then
        "Web search results:\n\n" ++ String.intercalate "\n\n"
          (results.map fun r =>
            "Title: " ++ r.title ++ "\nContent: " ++ r.content ++ "\nURL: " ++ r.url)
      else "No web search results found."
  | .error e => "Web search error: " ++ e

/-- Python `repr` of a list of strings, as interpolated by the f-string in
`search_documents_tool` (quoting with `'`, no escaping modelled). -/
def pyReprStrList (l : List String) : String :=
  "[" ++ String.intercalate ", " (l.map fun s => "\x27" ++ s ++ "\x27") ++ "]"

/-- `agent.py`, `OpenAIAgentSDK.search_documents_tool`, with `query_chroma`
modelled as an oracle (`.error` = the tool body raising; `query_chroma`
itself returns `[]` on a ChromaDB failure). -/
def search_documents_tool (docs : Except String (List String)) (_query : String) : String :=
  match docs with
  | .ok results =>
      if results.length > 0 then "Document search results: " ++ pyReprStrList results
      else "No relevant documents found."
  | .error e => "Document search error: " ++ e

/-- `agent.py`, `OpenAIAgentSDK.get_memory_context` (same rendering as the
`MemoryManager` version, over timestamp-free exchanges). -/
def get_memory_context (mem : SMem) (sid : String) : String :=
  match mem sid with
  | none => "No previous conversation."
  | some memory =>
      let context_parts := (lastPy memory 10).foldl
        (fun acc ex => acc ++ ["User: " ++ ex.user, "Assistant: " ++ ex.assistant]) []
      String.intercalate "\n" context_parts

/-- `agent.py`, `OpenAIAgentSDK.update_memory`: append, then keep only the
last 20 exchanges when the history exceeds 20. No summary exchange is ever
synthesized on this path. -/
def update_memory (mem : SMem) (sid user_query response : String) : SMem :=
  let hist := getHistS mem sid
  let hist1 := hist ++ [{ user := user_query, assistant := response }]
  let hist2 := if hist1.length > 20 then lastPy hist1 20 else hist1
  setHistS mem sid hist2

/-- Repeated `OpenAIAgentSDK.update_memory` calls on one session. -/
def update_many (mem : SMem) (sid : String) (inputs : List (String × String)) : SMem :=
  inputs.foldl (fun acc inp => update_memory acc sid inp.1 inp.2) mem

/-- The exchange record built for one SDK `update_memory` input. -/
def toExchS (inp : String × String) : SExchange :=
  { user := inp.1, assistant := inp.2 }

/-- The external services one query interacts with. `compose` models
`Runner.run_sync(self.agent, prompt).final_output` (`.error` = the call
raising, `.ok none` = `final_output` being `None`). -/
structure Oracles where
  moderation : Except String Bool
  web : Except String (List WebResult)
  docs : Except String (List String)
  compose : String → Except String (Option String)

/-- Python `x or fallback` on an `Optional[str]`: `None` and `""` are falsy. -/
def pyOr (x : Option String) (fallback : String) : String :=
  match x with
  | none => fallback
  | some s => if s = "" then fallback else s

/-- Outcome of `process_query_async`: the returned string, the memory map
afterwards, and the trace of external calls in order. -/
structure QueryResult where
  response : String
  memory : SMem
  trace : List Ev

/-- The web-branch format prompt built in both `process_query_async` and
`stream_response_async`. -/
def web_format_prompt (web : Except String (List WebResult)) (user_query : String) : String :=
  "User asked: " ++ user_query ++ "\n\nWeb search results: " ++
    search_web_tool web user_query ++
    "\n\nPlease provide a natural, helpful response based on this information."

/-- The document-branch format prompt built in both `process_query_async`
and `stream_response_async`. -/
def doc_format_prompt (docs : Except String (List String)) (user_query : String) : String :=
  "User asked: " ++ user_query ++ "\n\nDocument search results: " ++
    search_documents_tool docs user_query ++
    "\n\nPlease provide a natural, helpful response based on this information."

/-- The memory-augmented prompt used on the general branch. -/
def full_query_prompt (mem : SMem) (sid user_query : String) : String :=
  "Previous conversation context: " ++ get_memory_context mem sid ++
    "\n\nCurrent query: " ++ user_query

/-- `agent.py`, `OpenAIAgentSDK.process_query_async`: guardrails first, then
keyword routing (web takes precedence over documents), then composition;
memory is updated only when composition succeeds; a raised composition error
becomes an inline error message. -/
def process_query_async (o : Oracles) (mem : SMem) (user_query sid : String) :
    QueryResult :=
  let check := check_guardrails o.moderation user_query
  match check.1 with
  | (true, guardrail_message) =>
      { response := guardrail_message.getD "", memory := mem, trace := check.2 }
  | (false, _) =>
      let full_query := full_query_prompt mem sid user_query
      if needs_web_search user_query then
        let format_prompt := web_format_prompt o.web user_query
        let trace := check.2 ++ [Ev.webSearch user_query, Ev.compose format_prompt]
        match o.compose format_prompt with
        | .error e =>
            { response := "I encountered an error processing your request: " ++ e,
              memory := mem, trace := trace }
        | .ok out =>
            let response := pyOr out "I found some information but couldn\x27t format it properly."
            { response := response,
              memory := update_memory mem sid user_query response, trace := trace }
      else if needs_document_search user_query then
        let format_prompt := doc_format_prompt o.docs user_query
        let trace := check.2 ++ [Ev.docSearch user_query, Ev.compose format_prompt]
        match o.compose format_prompt with
        | .error e =>
            { response := "I encountered an error processing your request: " ++ e,
              memory := mem, trace := trace }
        | .ok out =>
            let response := pyOr out "I found some information but couldn\x27t format it properly."
            { response := response,
              memory := update_memory mem sid user_query response, trace := trace }
      else
        let trace := check.2 ++ [Ev.compose full_query]
        match o.compose full_query with
        | .error e =>
            { response := "I encountered an error processing your request: " ++ e,
              memory := mem, trace := trace }
        | .ok out =>
            let response := pyOr out "I apologize, but I couldn\x27t generate a response."
            { response := response,
              memory := update_memory mem sid user_query response, trace := trace }

/-- `agent.py`, `OpenAIAgentSDK.stream_response_async`: same guardrails and
routing, but composition goes through `_stream_openai_response`, modelled by
`frags`, the finite fragment sequence the streaming client yields for a
prompt (that helper catches its own errors, yielding an error fragment, so
the oracle is total). Returns the yielded fragments in order and the memory
afterwards; memory is updated with the concatenation of the fragments. -/
def stream_response_async (o : Oracles) (frags : String → List String)
    (mem : SMem) (user_query sid : String) : List String × SMem :=
  let check := check_guardrails o.moderation user_query
  match check.1 with
  | (true, guardrail_message) => ([guardrail_message.getD ""], mem)
  | (false, _) =>
      let full_query := full_query_prompt mem sid user_query
      if needs_web_search user_query then
        let chunks := frags (web_format_prompt o.web user_query)
        (chunks, update_memory mem sid user_query (String.join chunks))
      else if needs_document_search user_query then
        let chunks := frags (doc_format_prompt o.docs user_query)
        (chunks, update_memory mem sid user_query (String.join chunks))
      else
        let chunks := frags full_query
        (chunks, update_memory mem sid user_query (String.join chunks))

end SDK

namespace Suff

/-- Modelled from the spec: the Sufficiency Evaluator of spec section 4.2
has no implementation under `src/` (no `is_sufficient` appears in any
source file); this follows the spec's words. The freshness keyword list is
the one the spec enumerates. -/
def freshness_keywords : List String :=
  ["weather", "today", "latest", "current", "news", "stock price"]

/-- Modelled from the spec: tokenization step of section 4.2 — the query's
words longer than 2 characters, lowercased. -/
def queryTokens (query : String) : List String :=
  ((strLower query).splitOn " ").filter (fun w => w.length > 2)

/-- Modelled from the spec: `is_sufficient(query, passages)` of spec
section 4.2, with its checks in the order the spec lists them: empty
passages, freshness keywords, keyword overlap against the first two
passages (at least 2 tokens), trimmed combined length at least 100. -/
def is_sufficient (query : String) (passages : List String) : Bool × String :=
  if passages.isEmpty then (false, "no documents found")
  else if freshness_keywords.any (fun k => containsSub (strLower query) k) then
    (false, "needs fresh information")
  else
    let firstTwo := String.join (passages.take 2)
    let overlap := (queryTokens query).filter
      (fun t => containsSub (strLower firstTwo) t)
    if overlap.length < 2 then (false, "not relevant")
    else if (String.join passages).trim.length < 100 then
      (false, "insufficient length")
    else (true, "sufficient")

end Suff

namespace PDF

/-- `pdf_processor.py`, the chunking comprehension in `load_pdf_to_chroma`:
`[text[i:i+n] for i in range(0, len(text), n)]`, over a character list. -/
def chunkList (n : Nat) : List Char → List (List Char)
  | [] => []
  | c :: cs => List.take n (c :: cs) :: chunkList n (List.drop (n - 1) cs)
termination_by l => l.length
decreasing_by simp [List.length_drop]; omega

/-- `pdf_processor.py`, `load_pdf_to_chroma`: the chunk list built with the
hard-coded chunk size 1000. -/
def load_pdf_chunks (text : List Char) : List (List Char) :=
  chunkList 1000 text

end PDF

/-! ## Helper lemmas -/

/-- The guardrail check performs at most the moderation call. -/
theorem check_guardrails_trace_cases (m : Except String Bool) (q : String) :
    (SDK.check_guardrails m q).2 = [] ∨ (SDK.check_guardrails m q).2 = [Ev.moderation] := by
  unfold SDK.check_guardrails
  cases hc : contains_taiwan_politics (strLower q) <;> cases m <;> simp [hc]

/-- Reading back the session just written. -/
theorem getHist_setHist (mem : Mem) (sid : String) (l : List Exchange) :
    getHist (setHist mem sid l) sid = l := by
  simp [getHist, setHist]

/-- Reading back the session just written (SDK map). -/
theorem getHistS_setHistS (mem : SMem) (sid : String) (l : List SExchange) :
    getHistS (setHistS mem sid l) sid = l := by
  simp [getHistS, setHistS]

/-- Joining a one-fragment stream. -/
theorem join_singleton (s : String) : String.join [s] = s := by
  show "" ++ s = s
  simp

/-! ## C6 — Sufficiency Evaluator on empty passages -/

/-- C6: for every query, `is_sufficient(query, [])` is insufficient with
reason "no documents found", regardless of the query text. -/
theorem c6_sufficiency_empty_passages (query : String) :
    Suff.is_sufficient query [] = (false, "no documents found") := rfl

/-! ## C8 — clear is an idempotent no-op and restores the sentinel -/

/-- C8: clearing an absent session is a no-op (and raises nothing: the
deletion is guarded by the membership test), clearing is idempotent, and
`get_memory_context` on a freshly cleared session returns the sentinel
"No previous conversation.". -/
theorem c8_clear_idempotent_sentinel :
    (∀ (mem : Mem) (sid : String), mem sid = none →
       MM.clear_session_memory mem sid = mem) ∧
    (∀ (mem : Mem) (sid : String),
       MM.clear_session_memory (MM.clear_session_memory mem sid) sid =
         MM.clear_session_memory mem sid) ∧
    (∀ (mem : Mem) (sid : String),
       MM.get_memory_context (MM.clear_session_memory mem sid) sid =
         "No previous conversation.") := by
  refine ⟨fun mem sid h => ?_, fun mem sid => ?_, fun mem sid => ?_⟩
  · simp [MM.clear_session_memory, h]
  · by_cases h : (mem sid).isSome
    · simp [MM.clear_session_memory, h]
    · simp [MM.clear_session_memory, h]
  · by_cases h : (mem sid).isSome
    · simp [MM.clear_session_memory, MM.get_memory_context, h]
    · rw [Option.not_isSome_iff_eq_none] at h
      simp [MM.clear_session_memory, MM.get_memory_context, h]

/-- C8 witness: clearing the session "s" of a fresh store is a no-op. -/
theorem c8_witness : MM.clear_session_memory emptyMem "s" = emptyMem :=
  c8_clear_idempotent_sentinel.1 emptyMem "s" rfl

/-! ## C4 — moderation failures fail open -/

/-- C4: if the deny-list stage passes and the external moderation call
raises, both guardrail implementations return `blocked = false` with no
message — the error is absorbed, never propagated (the moderation call is
still the only external call attempted). -/
theorem c4_moderation_fail_open (user_query err : String)
    (h : contains_taiwan_politics (strLower user_query) = false) :
    GM.check_guardrails (.error err) user_query = ((false, none), true) ∧
    SDK.check_guardrails (.error err) user_query = ((false, none), [Ev.moderation]) := by
  constructor
  · simp [GM.check_guardrails, GM.check_openai_moderation, h]
  · simp [SDK.check_guardrails, h]

/-- C4 witness: a failing moderation service on the query "hello". -/
theorem c4_witness :
    GM.check_guardrails (.error "boom") "hello" = ((false, none), true) ∧
    SDK.check_guardrails (.error "boom") "hello" = ((false, none), [Ev.moderation]) :=
  c4_moderation_fail_open "hello" "boom" (by decide)

/-! ## C2 — deny-list phrases block before any external call -/

/-- C2: any query whose lowercasing contains a deny-list phrase is blocked
by both guardrail implementations with their fixed topic-redirect message,
the moderation API is not called, and `process_query_async` returns the
refusal without any moderation, retrieval, web-search, or composition call
and without touching memory. -/
theorem c2_denylist_blocks (user_query : String) (moderation : Except String Bool)
    (o : SDK.Oracles) (mem : SMem) (sid : String)
    (h : contains_taiwan_politics (strLower user_query) = true) :
    GM.check_guardrails moderation user_query = ((true, some GM.blocked_response), false) ∧
    SDK.check_guardrails moderation user_query = ((true, some SDK.blocked_message), []) ∧
    (SDK.process_query_async o mem user_query sid).response = SDK.blocked_message ∧
    (SDK.process_query_async o mem user_query sid).memory = mem ∧
    (SDK.process_query_async o mem user_query sid).trace = [] := by
  have hg : GM.check_guardrails moderation user_query =
      ((true, some GM.blocked_response), false) := by
    simp [GM.check_guardrails, h]
  have hs : SDK.check_guardrails o.moderation user_query =
      ((true, some SDK.blocked_message), []) := by
    simp [SDK.check_guardrails, h]
  have hs' : SDK.check_guardrails moderation user_query =
      ((true, some SDK.blocked_message), []) := by
    simp [SDK.check_guardrails, h]
  refine ⟨hg, hs', ?_, ?_, ?_⟩ <;>
    simp [SDK.process_query_async, hs]

/-- C2 witness: the query "Tell me about Taiwan politics". -/
theorem c2_witness :
    (SDK.process_query_async
        ⟨Except.ok false, Except.ok [], Except.ok [], fun _ => Except.ok none⟩
        emptySMem "Tell me about Taiwan politics" "s").response
      = SDK.blocked_message ∧
    (SDK.process_query_async
        ⟨Except.ok false, Except.ok [], Except.ok [], fun _ => Except.ok none⟩
        emptySMem "Tell me about Taiwan politics" "s").trace = [] := by
  have h := c2_denylist_blocks "Tell me about Taiwan politics" (Except.ok false)
    ⟨Except.ok false, Except.ok [], Except.ok [], fun _ => Except.ok none⟩
    emptySMem "s" (by decide)
  exact ⟨h.2.2.1, h.2.2.2.2⟩

/-! ## C3 — freshness keywords route to web only -/

/-- Whenever the freshness heuristic fires, no document-search call appears
in the processing trace (blocked or not). -/
theorem docSearch_not_mem_of_web (o : SDK.Oracles) (mem : SMem) (q sid p : String)
    (hw : SDK.needs_web_search q = true) :
    Ev.docSearch p ∉ (SDK.process_query_async o mem q sid).trace := by
  have htr := check_guardrails_trace_cases o.moderation q
  rcases hc : SDK.check_guardrails o.moderation q with ⟨⟨b, msg⟩, tr⟩
  rw [hc] at htr
  simp only at htr
  cases b
  · cases hcomp : o.compose (SDK.web_format_prompt o.web q) <;>
      rcases htr with h | h <;>
      simp [SDK.process_query_async, hc, hw, hcomp, h]
  · rcases htr with h | h <;> simp [SDK.process_query_async, hc, h]

/-- C3: when the freshness heuristic fires and guardrails pass, the router
consults web search only: the trace is the guardrail trace followed by
exactly one web-search and one composition call on the web-format prompt
(which embeds the web results only); no document-search call occurs; the
whole outcome is invariant under the document oracle; and conversely a
document-search call can occur only when the freshness heuristic is off. -/
theorem c3_web_routing (o : SDK.Oracles) (docs2 : Except String (List String))
    (mem : SMem) (user_query sid : String)
    (hw : SDK.needs_web_search user_query = true)
    (hb : (SDK.check_guardrails o.moderation user_query).1.1 = false) :
    (SDK.process_query_async o mem user_query sid).trace =
      (SDK.check_guardrails o.moderation user_query).2 ++
        [Ev.webSearch user_query,
         Ev.compose (SDK.web_format_prompt o.web user_query)] ∧
    (∀ q, Ev.docSearch q ∉ (SDK.process_query_async o mem user_query sid).trace) ∧
    SDK.process_query_async ⟨o.moderation, o.web, docs2, o.compose⟩ mem user_query sid =
      SDK.process_query_async o mem user_query sid ∧
    (∀ (o' : SDK.Oracles) (mem' : SMem) (q' sid' p : String),
       Ev.docSearch p ∈ (SDK.process_query_async o' mem' q' sid').trace →
       SDK.needs_web_search q' = false) := by
  refine ⟨?_, fun q => docSearch_not_mem_of_web o mem user_query sid q hw, ?_, ?_⟩
  · rcases hc : SDK.check_guardrails o.moderation user_query with ⟨⟨b, msg⟩, tr⟩
    rw [hc] at hb
    simp only at hb
    subst hb
    cases hcomp : o.compose (SDK.web_format_prompt o.web user_query) <;>
      simp [SDK.process_query_async, hc, hw, hcomp]
  · rcases hc : SDK.check_guardrails o.moderation user_query with ⟨⟨b, msg⟩, tr⟩
    rw [hc] at hb
    simp only at hb
    subst hb
    cases hcomp : o.compose (SDK.web_format_prompt o.web user_query) <;>
      simp [SDK.process_query_async, hc, hw, hcomp]
  · intro o' mem' q' sid' p hmem
    cases hw' : SDK.needs_web_search q'
    · rfl
    · exact absurd hmem (docSearch_not_mem_of_web o' mem' q' sid' p hw')

/-- C3 witness: the spec's scenario-1 query with a financial document
available; the document oracle is irrelevant and only web search runs. -/
theorem c3_witness :
    (SDK.process_query_async
        ⟨Except.ok false, Except.ok [], Except.ok ["unrelated financial text"],
         fun _ => Except.ok (some "answer")⟩
        emptySMem "What\x27s the weather in Paris today?" "s").trace =
      [Ev.moderation, Ev.webSearch "What\x27s the weather in Paris today?",
       Ev.compose (SDK.web_format_prompt (Except.ok []) "What\x27s the weather in Paris today?")] := by
  have h := c3_web_routing
    ⟨Except.ok false, Except.ok [], Except.ok ["unrelated financial text"],
     fun _ => Except.ok (some "answer")⟩
    (Except.ok []) emptySMem "What\x27s the weather in Paris today?" "s"
    (by decide) (by decide)
  exact h.1

/-! ## C9 — guardrails are frame-preserving and run first -/

/-- C9: the guardrail check mutates no session memory — on every blocked
query, processing returns the check's refusal message with the whole memory
map unchanged and with no retrieval, web-search, or composition call in the
trace; and on every query whatsoever the trace starts with the guardrail
check's own (moderation-only) events, with no moderation event afterwards,
so the check runs before any routing or retrieval. -/
theorem c9_guardrails_frame (o : SDK.Oracles) (mem : SMem) (user_query sid : String)
    (hb : (SDK.check_guardrails o.moderation user_query).1.1 = true) :
    (SDK.process_query_async o mem user_query sid).memory = mem ∧
    (SDK.process_query_async o mem user_query sid).response =
      ((SDK.check_guardrails o.moderation user_query).1.2).getD "" ∧
    (∀ e ∈ (SDK.process_query_async o mem user_query sid).trace, e = Ev.moderation) ∧
    (∀ (o' : SDK.Oracles) (mem' : SMem) (q' sid' : String),
       ∃ rest, (SDK.process_query_async o' mem' q' sid').trace =
           (SDK.check_guardrails o'.moderation q').2 ++ rest ∧
         Ev.moderation ∉ rest) := by
  have htr := check_guardrails_trace_cases o.moderation user_query
  rcases hc : SDK.check_guardrails o.moderation user_query with ⟨⟨b, msg⟩, tr⟩
  rw [hc] at hb htr
  simp only at hb htr
  subst hb
  refine ⟨?_, ?_, ?_, ?_⟩
  · simp [SDK.process_query_async, hc]
  · simp [SDK.process_query_async, hc]
  · intro e he
    simp [SDK.process_query_async, hc] at he
    rcases htr with h | h
    · rw [h] at he
      simp at he
    · rw [h] at he
      simp at he
      exact he
  · intro o' mem' q' sid'
    rcases hc' : SDK.check_guardrails o'.moderation q' with ⟨⟨b', msg'⟩, tr'⟩
    cases b'
    · cases hw : SDK.needs_web_search q'
      · cases hd : SDK.needs_document_search q'
        · refine ⟨[Ev.compose (SDK.full_query_prompt mem' sid' q')], ?_, by simp⟩
          cases hcomp : o'.compose (SDK.full_query_prompt mem' sid' q') <;>
            simp [SDK.process_query_async, hc', hw, hd, hcomp]
        · refine ⟨[Ev.docSearch q', Ev.compose (SDK.doc_format_prompt o'.docs q')], ?_, by simp⟩
          cases hcomp : o'.compose (SDK.doc_format_prompt o'.docs q') <;>
            simp [SDK.process_query_async, hc', hw, hd, hcomp]
      · refine ⟨[Ev.webSearch q', Ev.compose (SDK.web_format_prompt o'.web q')], ?_, by simp⟩
        cases hcomp : o'.compose (SDK.web_format_prompt o'.web q') <;>
          simp [SDK.process_query_async, hc', hw, hcomp]
    · exact ⟨[], by simp [SDK.process_query_async, hc'], by simp⟩

/-- C9 witness: a blocked query leaves a one-session store untouched. -/
theorem c9_witness :
    (SDK.process_query_async
        ⟨Except.ok false, Except.ok [], Except.ok [], fun _ => Except.ok (some "x")⟩
        (setHistS emptySMem "s" [{ user := "a", assistant := "b" }])
        "Tell me about Taiwan politics" "s").memory =
      setHistS emptySMem "s" [{ user := "a", assistant := "b" }] := by
  have h := c9_guardrails_frame
    ⟨Except.ok false, Except.ok [], Except.ok [], fun _ => Except.ok (some "x")⟩
    (setHistS emptySMem "s" [{ user := "a", assistant := "b" }])
    "Tell me about Taiwan politics" "s" (by decide)
  exact h.1

/-! ## C7 — streaming vs. batch composition -/

/-- C7 counterexample: with genuinely identical external responses — the
batch composer returns exactly the concatenation of the streaming
fragments for every prompt (here the empty output) — the non-streaming
variant substitutes its fixed fallback string while the streaming variant
yields the empty concatenation, so the two outputs differ. -/
theorem c7_counterexample :
    (∀ p : String,
        (SDK.Oracles.mk (Except.ok false) (Except.ok []) (Except.ok [])
            (fun _ => Except.ok (some ""))).compose p =
          Except.ok (some (String.join ((fun _ => ([] : List String)) p)))) ∧
    String.join (SDK.stream_response_async
        ⟨Except.ok false, Except.ok [], Except.ok [], fun _ => Except.ok (some "")⟩
        (fun _ => []) emptySMem "hi" "s").1 ≠
      (SDK.process_query_async
        ⟨Except.ok false, Except.ok [], Except.ok [], fun _ => Except.ok (some "")⟩
        emptySMem "hi" "s").response := by
  exact ⟨fun p => rfl, by decide⟩

/-- C7 (amended): given the same guardrail verdict and external responses —
the batch composer returning exactly the concatenation of the streaming
fragments for every prompt — and provided that concatenation is non-empty,
the concatenation of the fragments produced by `stream_response_async`
equals the string returned by `process_query_async`. (When the composed
output is empty or `None`, the non-streaming variant substitutes a fixed
fallback message instead, which the streaming variant has no analogue of.) -/
theorem c7_stream_batch_agreement (o : SDK.Oracles) (frags : String → List String)
    (mem : SMem) (user_query sid : String)
    (hlink : ∀ p, o.compose p = Except.ok (some (String.join (frags p))))
    (hne : ∀ p, String.join (frags p) ≠ "") :
    String.join (SDK.stream_response_async o frags mem user_query sid).1 =
      (SDK.process_query_async o mem user_query sid).response := by
  rcases hc : SDK.check_guardrails o.moderation user_query with ⟨⟨b, msg⟩, tr⟩
  cases b
  · cases hw : SDK.needs_web_search user_query
    · cases hd : SDK.needs_document_search user_query
      · simp [SDK.stream_response_async, SDK.process_query_async, hc, hw, hd,
          hlink (SDK.full_query_prompt mem sid user_query), SDK.pyOr,
          hne (SDK.full_query_prompt mem sid user_query)]
      · simp [SDK.stream_response_async, SDK.process_query_async, hc, hw, hd,
          hlink (SDK.doc_format_prompt o.docs user_query), SDK.pyOr,
          hne (SDK.doc_format_prompt o.docs user_query)]
    · simp [SDK.stream_response_async, SDK.process_query_async, hc, hw,
        hlink (SDK.web_format_prompt o.web user_query), SDK.pyOr,
        hne (SDK.web_format_prompt o.web user_query)]
  · simp [SDK.stream_response_async, SDK.process_query_async, hc, join_singleton]

/-- C7 witness: a composer that answers "ok" on every prompt, streamed as a
single fragment; both delivery modes produce the same text. -/
theorem c7_witness :
    String.join (SDK.stream_response_async
        ⟨Except.ok false, Except.ok [], Except.ok [], fun _ => Except.ok (some "ok")⟩
        (fun _ => ["ok"]) emptySMem "hi" "s").1 =
      (SDK.process_query_async
        ⟨Except.ok false, Except.ok [], Except.ok [], fun _ => Except.ok (some "ok")⟩
        emptySMem "hi" "s").response :=
  c7_stream_batch_agreement
    ⟨Except.ok false, Except.ok [], Except.ok [], fun _ => Except.ok (some "ok")⟩
    (fun _ => ["ok"]) emptySMem "hi" "s" (fun p => rfl)
    (fun p => (by decide : String.join ["ok"] ≠ ""))

/-! ## C10 — PDF chunking partitions the text -/

/-- For a positive chunk size, unfolding one chunking step on a non-empty
list: the head chunk is `take n`, the rest chunks the `drop n`. -/
theorem chunkList_cons (n : Nat) (hn : 0 < n) (c : Char) (cs : List Char) :
    PDF.chunkList n (c :: cs) =
      List.take n (c :: cs) :: PDF.chunkList n (List.drop n (c :: cs)) := by
  rw [PDF.chunkList]
  congr 1
  congr 1
  cases n with
  | zero => omega
  | succ m => simp

/-- Chunking a list and flattening recovers the list. -/
theorem chunkList_flatten (n : Nat) (hn : 0 < n) :
    (l : List Char) → (PDF.chunkList n l).flatten = l
  | [] => by simp [PDF.chunkList]
  | c :: cs => by
      rw [chunkList_cons n hn, List.flatten_cons,
        chunkList_flatten n hn (List.drop n (c :: cs)), List.take_append_drop]
termination_by l => l.length
decreasing_by simp; omega

/-- Chunking yields `[]` only on `[]`. -/
theorem chunkList_eq_nil_iff (n : Nat) (l : List Char) :
    PDF.chunkList n l = [] ↔ l = [] := by
  cases l with
  | nil => simp [PDF.chunkList]
  | cons c cs => rw [PDF.chunkList]; simp

/-- Every chunk except the last has length exactly `n`. -/
theorem chunkList_dropLast_length (n : Nat) (hn : 0 < n) :
    (l : List Char) → ∀ chunk ∈ (PDF.chunkList n l).dropLast, chunk.length = n
  | [] => by simp [PDF.chunkList]
  | c :: cs => by
      intro chunk hmem
      rw [chunkList_cons n hn] at hmem
      by_cases hrest : List.drop n (c :: cs) = []
      · rw [hrest] at hmem
        simp [PDF.chunkList] at hmem
      · have hne : PDF.chunkList n (List.drop n (c :: cs)) ≠ [] := by
          simpa [chunkList_eq_nil_iff] using hrest
        rw [List.dropLast_cons_of_ne_nil hne] at hmem
        rcases List.mem_cons.mp hmem with h | h
        · subst h
          have hlen : n < cs.length + 1 := by
            by_contra hle
            exact hrest (List.drop_eq_nil_iff.mpr (by simp; omega))
          simp [List.length_take]
          omega
        · exact chunkList_dropLast_length n hn (List.drop n (c :: cs)) chunk h
termination_by l => l.length
decreasing_by simp; omega

/-- The last chunk has length between 1 and `n`. -/
theorem chunkList_getLast_length (n : Nat) (hn : 0 < n) :
    (l : List Char) → ∀ chunk, (PDF.chunkList n l).getLast? = some chunk →
      1 ≤ chunk.length ∧ chunk.length ≤ n
  | [] => by simp [PDF.chunkList]
  | c :: cs => by
      intro chunk hlast
      rw [chunkList_cons n hn] at hlast
      by_cases hrest : List.drop n (c :: cs) = []
      · rw [hrest] at hlast
        simp [PDF.chunkList] at hlast
        subst hlast
        have hle : cs.length + 1 ≤ n := by
          have := List.drop_eq_nil_iff.mp hrest
          simpa using this
        simp [List.length_take]
        omega
      · have hne : PDF.chunkList n (List.drop n (c :: cs)) ≠ [] := by
          simpa [chunkList_eq_nil_iff] using hrest
        rcases List.exists_cons_of_ne_nil hne with ⟨d, ds, hds⟩
        rw [hds, List.getLast?_cons_cons] at hlast
        rw [← hds] at hlast
        exact chunkList_getLast_length n hn (List.drop n (c :: cs)) chunk hlast
termination_by l => l.length
decreasing_by simp; omega

/-- C10: `load_pdf_to_chroma`'s chunking partitions the extracted text into
consecutive non-overlapping 1000-character chunks: concatenating the chunks
in order reproduces the text, every chunk but the last has length exactly
1000, and the last chunk (present exactly when the text is non-empty) has
length between 1 and 1000. -/
theorem c10_pdf_chunking (text : List Char) :
    (PDF.load_pdf_chunks text).flatten = text ∧
    (∀ chunk ∈ (PDF.load_pdf_chunks text).dropLast, chunk.length = 1000) ∧
    (∀ chunk, (PDF.load_pdf_chunks text).getLast? = some chunk →
       1 ≤ chunk.length ∧ chunk.length ≤ 1000) :=
  ⟨chunkList_flatten 1000 (by omega) text,
   chunkList_dropLast_length 1000 (by omega) text,
   chunkList_getLast_length 1000 (by omega) text⟩

/-- C10 witness: a 6-character text with chunk size 1000 gives one chunk,
whose flattening is the text and whose last chunk has a valid length. -/
theorem c10_witness :
    (PDF.load_pdf_chunks "abcdef".data).flatten = "abcdef".data ∧
    (1 ≤ ("abcdef".data).length ∧ ("abcdef".data).length ≤ 1000) := by
  have hd : "abcdef".data = ['a', 'b', 'c', 'd', 'e', 'f'] := rfl
  have hchunks : PDF.load_pdf_chunks "abcdef".data = ["abcdef".data] := by
    rw [PDF.load_pdf_chunks, hd, chunkList_cons 1000 (by omega)]
    simp [PDF.chunkList]
  exact ⟨(c10_pdf_chunking "abcdef".data).1,
    (c10_pdf_chunking "abcdef".data).2.2 "abcdef".data (by rw [hchunks]; rfl)⟩

/-! ## C5 — the SDK's own memory only truncates -/

/-- Appending one element and re-trimming commutes with keeping the last
`n` elements. -/
theorem lastPy_snoc_trim {α : Type} (n : Nat) (hn : 0 < n) (A : List α) (x : α) :
    (if (lastPy A n ++ [x]).length > n then lastPy (lastPy A n ++ [x]) n
     else lastPy A n ++ [x]) = lastPy (A ++ [x]) n := by
  have hne : ¬ (n = 0) := by omega
  unfold lastPy
  simp only [hne, if_false]
  by_cases hlt : A.length < n
  · have h0 : A.length - n = 0 := by omega
    have h1 : (A ++ [x]).length - n = 0 := by simp; omega
    have hlen : ¬ ((A.drop (A.length - n) ++ [x]).length > n) := by
      simp [h0]; omega
    rw [if_neg hlen, h0, h1, List.drop_zero, List.drop_zero]
  · push_neg at hlt
    have hdlen : (A.drop (A.length - n)).length = n := by simp; omega
    have hgt : (A.drop (A.length - n) ++ [x]).length > n := by simp [hdlen]
    rw [if_pos hgt]
    have h2 : (A.drop (A.length - n) ++ [x]).length - n = 1 := by simp [hdlen]
    rw [h2, List.drop_append_of_le_length (by omega), List.drop_drop]
    have h3 : (A ++ [x]).length - n = A.length - n + 1 := by simp; omega
    rw [h3, List.drop_append_of_le_length (by omega)]

/-- Keeping the last `n` of a list keeps at most `n` elements. -/
theorem lastPy_length_le {α : Type} (n : Nat) (hn : 0 < n) (l : List α) :
    (lastPy l n).length ≤ n := by
  have hne : ¬ (n = 0) := by omega
  unfold lastPy
  simp only [hne, if_false, List.length_drop]
  omega

/-- Keeping the last `n` of a list keeps only elements of the list. -/
theorem lastPy_subset {α : Type} (n : Nat) (l : List α) : lastPy l n ⊆ l := by
  unfold lastPy
  by_cases h : n = 0
  · simp [h]
  · simp only [h, if_false]
    exact List.drop_subset _ _

/-- After any run of `OpenAIAgentSDK.update_memory` calls from a fresh
store, a session's history is exactly the last 20 appended exchanges. -/
theorem update_many_getHistS (sid : String) (inputs : List (String × String)) :
    getHistS (SDK.update_many emptySMem sid inputs) sid =
      lastPy (inputs.map SDK.toExchS) 20 := by
  induction inputs using List.reverseRecOn with
  | nil => simp [SDK.update_many, getHistS, emptySMem, lastPy]
  | append_singleton xs x ih =>
      have hsplit : SDK.update_many emptySMem sid (xs ++ [x]) =
          SDK.update_memory (SDK.update_many emptySMem sid xs) sid x.1 x.2 := by
        simp [SDK.update_many, List.foldl_append]
      rw [hsplit, SDK.update_memory, List.map_append]
      simp only [getHistS_setHistS, ih]
      exact lastPy_snoc_trim 20 (by omega) (xs.map SDK.toExchS) (SDK.toExchS x)

/-- C5: in the agent class the application constructs (`OpenAIAgentSDK`,
aliased `OpenAIAgent` and instantiated by `app.py`), for every session and
every sequence of appends the stored history is exactly the at-most-20 most
recent exchanges verbatim — `update_memory` discards all but the 20 most
recent and never synthesizes a summary exchange, so no stored entry has
user field "[Previous conversation summary]" unless the user typed it. -/
theorem c5_sdk_memory_truncation (sid : String) (inputs : List (String × String)) :
    getHistS (SDK.update_many emptySMem sid inputs) sid =
      lastPy (inputs.map SDK.toExchS) 20 ∧
    (getHistS (SDK.update_many emptySMem sid inputs) sid).length ≤ 20 ∧
    (∀ e ∈ getHistS (SDK.update_many emptySMem sid inputs) sid,
       e ∈ inputs.map SDK.toExchS) ∧
    ((∀ p ∈ inputs, p.1 ≠ "[Previous conversation summary]") →
       ∀ e ∈ getHistS (SDK.update_many emptySMem sid inputs) sid,
         e.user ≠ "[Previous conversation summary]") := by
  have hmain := update_many_getHistS sid inputs
  have hsub : ∀ e ∈ getHistS (SDK.update_many emptySMem sid inputs) sid,
      e ∈ inputs.map SDK.toExchS := by
    intro e he
    rw [hmain] at he
    exact lastPy_subset 20 _ he
  refine ⟨hmain, ?_, hsub, ?_⟩
  · rw [hmain]
    exact lastPy_length_le 20 (by omega) _
  · intro hclean e he
    rcases List.mem_map.mp (hsub e he) with ⟨p, hp, hpe⟩
    have : e.user = p.1 := by rw [← hpe]; rfl
    rw [this]
    exact hclean p hp

/-- C5 witness: two appends on session "s"; the stored history is both
exchanges verbatim and contains no synthetic summary entry. -/
theorem c5_witness :
    getHistS (SDK.update_many emptySMem "s" [("q1", "a1"), ("q2", "a2")]) "s" =
      lastPy ([("q1", "a1"), ("q2", "a2")].map SDK.toExchS) 20 ∧
    (∀ e ∈ getHistS (SDK.update_many emptySMem "s" [("q1", "a1"), ("q2", "a2")]) "s",
       e.user ≠ "[Previous conversation summary]") := by
  have h := c5_sdk_memory_truncation "s" [("q1", "a1"), ("q2", "a2")]
  exact ⟨h.1, h.2.2.2 (by decide)⟩

/-! ## C1 — MemoryManager compaction discipline -/

/-- A fresh store has no history. -/
theorem getHist_empty (sid : String) : getHist emptyMem sid = [] := rfl

/-- `toExch` spelled out as the record `update_memory` appends. -/
theorem toExch_def (inp : String × String × Nat) :
    MM.toExch inp =
      { user := inp.1, assistant := inp.2.1, timestamp := inp.2.2 } := rfl

/-- Keeping the last `n` of a list of length at least `n` keeps exactly `n`. -/
theorem lastPy_length_of_le {α : Type} (n : Nat) (hn : 0 < n) (l : List α)
    (h : n ≤ l.length) : (lastPy l n).length = n := by
  have hne : ¬ (n = 0) := by omega
  unfold lastPy
  simp only [hne, if_false, List.length_drop]
  omega

/-- While the running length stays below `max_exchanges`, a run of
`MemoryManager.update_memory` calls never compacts and appends verbatim. -/
theorem update_many_no_compact (maxE keepR : Nat) (summ : String → Option String)
    (sid : String) (inputs : List (String × String × Nat)) :
    ∀ mem : Mem, (getHist mem sid).length + inputs.length < maxE →
      (MM.update_many maxE keepR summ mem sid inputs).2 = 0 ∧
      getHist (MM.update_many maxE keepR summ mem sid inputs).1 sid =
        getHist mem sid ++ inputs.map MM.toExch := by
  induction inputs with
  | nil =>
      intro mem _
      exact ⟨rfl, by simp [MM.update_many]⟩
  | cons inp rest ih =>
      intro mem h
      have hlen : ¬ ((getHist mem sid ++
          [({ user := inp.1, assistant := inp.2.1, timestamp := inp.2.2 } :
            Exchange)]).length ≥ maxE) := by
        simp at h ⊢
        omega
      have hupd : MM.update_memory maxE keepR summ mem sid inp.1 inp.2.1 inp.2.2 =
          (setHist mem sid (getHist mem sid ++ [MM.toExch inp]), false) := by
        unfold MM.update_memory
        simp only [if_neg hlen]
        rfl
      have hstep : MM.update_many maxE keepR summ mem sid (inp :: rest) =
          MM.update_many maxE keepR summ
            (setHist mem sid (getHist mem sid ++ [MM.toExch inp])) sid rest := by
        simp [MM.update_many, hupd]
      rw [hstep]
      have hpre : (getHist (setHist mem sid (getHist mem sid ++ [MM.toExch inp])) sid).length
          + rest.length < maxE := by
        rw [getHist_setHist]
        simp at h ⊢
        omega
      rcases ih (setHist mem sid (getHist mem sid ++ [MM.toExch inp])) hpre with ⟨h1, h2⟩
      refine ⟨h1, ?_⟩
      rw [h2, getHist_setHist]
      simp

/-- C1: from a fresh session, appending `k < max_exchanges` exchanges via
`MemoryManager.update_memory` never triggers compaction and stores them
verbatim; appending until the history reaches `max_exchanges` triggers
exactly one compaction (when summarization succeeds) leaving exactly
`keep_recent + 1` exchanges: a synthetic head whose user field is
"[Previous conversation summary]" followed by the `keep_recent` most
recent exchanges verbatim. Requires `1 ≤ keep_recent ≤ max_exchanges`
(the shipped configuration is 5 and 20). -/
theorem c1_memory_compaction (maxE keepR : Nat) (summ : String → Option String)
    (sid : String) (inputs : List (String × String × Nat))
    (hk : 1 ≤ keepR) (hkm : keepR ≤ maxE)
    (hsum : ∀ t, (summ t).isSome = true) :
    (inputs.length < maxE →
       (MM.update_many maxE keepR summ emptyMem sid inputs).2 = 0 ∧
       getHist (MM.update_many maxE keepR summ emptyMem sid inputs).1 sid =
         inputs.map MM.toExch) ∧
    (inputs.length = maxE →
       (MM.update_many maxE keepR summ emptyMem sid inputs).2 = 1 ∧
       (getHist (MM.update_many maxE keepR summ emptyMem sid inputs).1 sid).length =
         keepR + 1 ∧
       (getHist (MM.update_many maxE keepR summ emptyMem sid inputs).1 sid).head?.map
         Exchange.user = some "[Previous conversation summary]" ∧
       (getHist (MM.update_many maxE keepR summ emptyMem sid inputs).1 sid).tail =
         lastPy (inputs.map MM.toExch) keepR) := by
  constructor
  · intro hlt
    have h := update_many_no_compact maxE keepR summ sid inputs emptyMem
      (by rw [getHist_empty]; simp only [List.length_nil]; omega)
    rw [getHist_empty] at h
    simpa using h
  · intro heq
    have hne : inputs ≠ [] := by
      intro h0
      rw [h0] at heq
      simp at heq
      omega
    set x := inputs.getLast hne with hxdef
    have hx : inputs.dropLast ++ [x] = inputs := List.dropLast_append_getLast hne
    have ha := update_many_no_compact maxE keepR summ sid inputs.dropLast emptyMem
      (by rw [getHist_empty]
          simp only [List.length_nil, List.length_dropLast]
          omega)
    rw [getHist_empty, List.nil_append] at ha
    have hhist1 : getHist (MM.update_many maxE keepR summ emptyMem sid inputs.dropLast).1 sid
        ++ [MM.toExch x] = inputs.map MM.toExch := by
      rw [ha.2]
      conv_rhs => rw [← hx]
      rw [List.map_append]
      rfl
    have hAlen : (inputs.map MM.toExch).length = maxE := by
      rw [List.length_map, heq]
    have hge : (getHist (MM.update_many maxE keepR summ emptyMem sid inputs.dropLast).1 sid
        ++ [({ user := x.1, assistant := x.2.1, timestamp := x.2.2 } :
          Exchange)]).length ≥ maxE := by
      rw [← toExch_def, hhist1, hAlen]
    have hupd : MM.update_memory maxE keepR summ
        (MM.update_many maxE keepR summ emptyMem sid inputs.dropLast).1 sid
        x.1 x.2.1 x.2.2 =
        (setHist (MM.update_many maxE keepR summ emptyMem sid inputs.dropLast).1 sid
          (MM.compact_memory keepR summ x.2.2 (inputs.map MM.toExch)), true) := by
      unfold MM.update_memory
      simp only [if_pos hge]
      rw [← toExch_def x, hhist1]
    have hstep2 : MM.update_many maxE keepR summ emptyMem sid (inputs.dropLast ++ [x]) =
        ((MM.update_memory maxE keepR summ
            (MM.update_many maxE keepR summ emptyMem sid inputs.dropLast).1 sid
            x.1 x.2.1 x.2.2).1,
          (MM.update_many maxE keepR summ emptyMem sid inputs.dropLast).2 +
            if (MM.update_memory maxE keepR summ
                (MM.update_many maxE keepR summ emptyMem sid inputs.dropLast).1 sid
                x.1 x.2.1 x.2.2).2 then 1 else 0) := by
      simp [MM.update_many, List.foldl_append]
    have hsplit : MM.update_many maxE keepR summ emptyMem sid inputs =
        (setHist (MM.update_many maxE keepR summ emptyMem sid inputs.dropLast).1 sid
          (MM.compact_memory keepR summ x.2.2 (inputs.map MM.toExch)), 1) := by
      conv_lhs => rw [← hx]
      rw [hstep2, hupd, ha.1]
      simp
    obtain ⟨s, hs⟩ := Option.isSome_iff_exists.mp
      (hsum (String.join ((dropLastPy (inputs.map MM.toExch) keepR).map fun ex =>
        "User: " ++ ex.user ++ "\nAssistant: " ++ ex.assistant ++ "\n\n")))
    have hcompact : MM.compact_memory keepR summ x.2.2 (inputs.map MM.toExch) =
        { user := "[Previous conversation summary]", assistant := s,
          timestamp := x.2.2 } :: lastPy (inputs.map MM.toExch) keepR := by
      unfold MM.compact_memory
      simp only [hs]
    rw [hsplit, getHist_setHist, hcompact]
    refine ⟨rfl, ?_, rfl, rfl⟩
    rw [List.length_cons, lastPy_length_of_le keepR (by omega) _ (by omega)]

/-- C1 witness: `max_exchanges = 3`, `keep_recent = 1`, summarizer always
answering "sum": two appends store verbatim without compaction; a third
append compacts once down to two exchanges headed by the summary entry. -/
theorem c1_witness :
    ((MM.update_many 3 1 (fun _ => some "sum") emptyMem "s"
        [("a", "b", 0), ("c", "d", 1)]).2 = 0 ∧
      getHist (MM.update_many 3 1 (fun _ => some "sum") emptyMem "s"
        [("a", "b", 0), ("c", "d", 1)]).1 "s" =
        [("a", "b", 0), ("c", "d", 1)].map MM.toExch) ∧
    ((MM.update_many 3 1 (fun _ => some "sum") emptyMem "s"
        [("a", "b", 0), ("c", "d", 1), ("e", "f", 2)]).2 = 1 ∧
      (getHist (MM.update_many 3 1 (fun _ => some "sum") emptyMem "s"
        [("a", "b", 0), ("c", "d", 1), ("e", "f", 2)]).1 "s").length = 1 + 1) := by
  have h2 := c1_memory_compaction 3 1 (fun _ => some "sum") "s"
    [("a", "b", 0), ("c", "d", 1)] (by omega) (by omega) (fun t => rfl)
  have h3 := c1_memory_compaction 3 1 (fun _ => some "sum") "s"
    [("a", "b", 0), ("c", "d", 1), ("e", "f", 2)] (by omega) (by omega) (fun t => rfl)
  exact ⟨h2.1 (by decide), (h3.2 (by decide)).1, (h3.2 (by decide)).2.1⟩

end AgentApp
